import Mathlib

/-!
Verification development for the dndCombatSim repository.

This file gives a shallow embedding, in Lean 4, of the parts of the
combat state machine that the specification claims talk about:

* `combatCharacter` state: team, stats (max HP, speed, damage
  immunity/resistance/vulnerability lists, property-bag keys), resources
  (current HP, movement, death-save tally) and the condition registry
  (`src/combatCharacter.py`).
* condition gain/loss hooks and the add/remove cascade rules
  (`combatCharacter.add_condition` / `remove_condition`,
  `condition._effect_on_gain` / `_effect_on_loss`).
* HP bookkeeping (`resources.heal_hp`, `resources.remove_hp`), death
  saves (`resources._gain_death_save`, `resources.do_death_save`),
  damage intake (`combatCharacter.take_damage`) and spell-slot lookup
  (`resources.get_next_available_slot`).
* attack resolution: `attack.roll_hit` plus the hit test of
  `action._do_attack`, and `attack.roll_damage` with its helpers
  (`src/attack.py`, `src/action.py`).

Modelling conventions:

* Python exceptions (KeyError, TypeError, ValueError, AttributeError,
  bare Exception) are modelled with `Except PyError`.  An operation that
  raises is modelled as returning `Except.error`; the post-crash partial
  mutations of the Python objects are not tracked, because the simulation
  has no handler for these exceptions and stops at that point.
* Python dicts keyed by strings are modelled as insertion-ordered
  association lists; `char_conditions` keeps one entry per condition
  name, exactly like the dict.
* Python ints are `Int`; Python floor division `//` is `Int.fdiv`.
  `resources.movement` is a Python float, but every value it takes in
  the modelled operations is integral (0 or a stored speed), so it is
  modelled as `Int`.
* Condition durations: only the data needed by the claims is tracked,
  namely whether the condition was created with duration `'indefinite'`
  (in which case `condition.__init__` returns early and never creates
  the `_stored` attribute) and, for a timed condition, the contents of
  its `_stored` dict.  `condition.add_time` mutates only the untracked
  `remaining` field, so on the tracked state it is the identity when it
  does not raise; its ValueError cases (malformed duration string,
  which includes the string `'indefinite'` itself) are modelled.
  The numeric decay of `remaining` (`check_condition`) is not needed by
  any claim and is not modelled.
* The cascade recursion in `add_condition` / `remove_condition` only
  ever recurses through the fixed name chain
  dying → unconscious → incapacitated → dodge (and unconscious → prone),
  so the recursion is unrolled into one helper per cascaded name; each
  helper reproduces the full body of the Python method at that name.
* Custom conditions (names starting with `c_`) appear in no claim; the
  prefix stripping of `condition.__init__` is omitted.
* Dice rolls are the single nondeterministic input.  The d20 result and
  the `roll.roll_d` primitive are passed in as parameters, and theorems
  quantify over them.
-/

/-- Python exceptions that the modelled code can raise. -/
inductive PyError where
  | keyError (key : String)
  | typeError (msg : String)
  | valueError (msg : String)
  | attributeError (msg : String)
  | exception (msg : String)
deriving Repr, DecidableEq

/-- Decidable equality of `Except` results, for evaluating the model at
concrete inputs. -/
instance exceptDecEq {ε α : Type} [DecidableEq ε] [DecidableEq α] :
    DecidableEq (Except ε α) := fun a b =>
  match a, b with
  | Except.ok x, Except.ok y =>
    if h : x = y then Decidable.isTrue (by rw [h])
    else Decidable.isFalse (by intro hc; cases hc; exact h rfl)
  | Except.error x, Except.error y =>
    if h : x = y then Decidable.isTrue (by rw [h])
    else Decidable.isFalse (by intro hc; cases hc; exact h rfl)
  | Except.ok _, Except.error _ => Decidable.isFalse (by intro hc; cases hc)
  | Except.error _, Except.ok _ => Decidable.isFalse (by intro hc; cases hc)

/-- Split a list of characters at every occurrence of `sep`, mirroring
Python `str.split(sep)` for a one-character separator (so
`split ' ' "" = [""]` and separators at the ends produce empty groups). -/
def splitBy (sep : Char) : List Char → List (List Char)
  | [] => [[]]
  | c :: rest =>
    let r := splitBy sep rest
    if c = sep then [] :: r
    else
      match r with
      | [] => [[c]]
      | g :: gs => (c :: g) :: gs

/-- String version of `splitBy`, mirroring Python `str.split(sep)`. -/
def splitOnChar (s : String) (sep : Char) : List String :=
  (splitBy sep s.data).map String.mk

/-- Valid duration units, from `combatCharacter.py` line 1177. -/
def timeUnitNames : List String :=
  ["round", "second", "minute", "hour", "day", "sont", "eont"]

/-- Check that a duration string has the `# unit` shape accepted by
`condition.__init__` and `condition.add_time` (`combatCharacter.py`
lines 1174-1182): exactly two space-separated parts, a known unit, and a
numeric first part (Python `str.isnumeric` on the digit strings used
here coincides with all-digits-nonempty). -/
def validDuration (s : String) : Bool :=
  match splitOnChar s ' ' with
  | [num, unit] =>
    decide (unit ∈ timeUnitNames) && !num.data.isEmpty && num.data.all Char.isDigit
  | _ => false

/-- One entry of the `char_conditions` dict: the `condition` class of
`combatCharacter.py` (lines 1110-1185), restricted to the fields the
claims depend on.  `stored = none` models a condition created with
duration `'indefinite'`, for which `__init__` returns early (line 1171)
and the `_stored` attribute is never created; `stored = some none`
models the empty `_stored` dict of a timed condition; and
`stored = some (some v)` models `_stored = {'speed': v}` as written by
the grappled/restrained gain hook. -/
structure condition where
  name : String
  indefinite : Bool
  stored : Option (Option Int)
deriving Repr, DecidableEq

/-- The state of one combat character (`combatCharacter` of
`combatCharacter.py`), flattened across its `stats` and `resources`
inner objects: `team`, `char_stats.max_hp`, `char_stats.speed`, the key
set of `char_stats.property`, `char_stats.imm/res/vul`,
`char_resources.hp`, `char_resources.movement`,
`char_resources.death_saves` and the `char_conditions` dict. -/
structure combatCharacter where
  team : String
  max_hp : Int
  speed : Int
  property : List String
  imm : List String
  res : List String
  vul : List String
  hp : Int
  movement : Int
  death_save_success : Int
  death_save_fail : Int
  char_conditions : List condition
deriving Repr, DecidableEq

/-- Membership test for the `char_conditions` dict
(Python `name in self.char_conditions`). -/
def hasCond (ch : combatCharacter) (name : String) : Bool :=
  ch.char_conditions.any (fun c => c.name = name)

/-- Lookup in the `char_conditions` dict
(Python `self.char_conditions[name]`, as an `Option`). -/
def lookupCond (ch : combatCharacter) (name : String) : Option condition :=
  ch.char_conditions.find? (fun c => c.name = name)

/-- Deletion from the `char_conditions` dict
(Python `del self.char_conditions[name]`). -/
def eraseCond (cs : List condition) (name : String) : List condition :=
  cs.filter (fun c => c.name ≠ name)

/-- The `condition._effect_on_gain` hook (`combatCharacter.py` lines
1270-1293), acting on the owning character and on the condition object
itself.  Gaining grappled or restrained snapshots the current speed into
`_stored['speed']` (an AttributeError if the condition was created
indefinite, since `_stored` then does not exist), zeroes
`char_stats.speed` and zeroes `char_resources.movement`; gaining
stabilized resets the death-save tally. -/
def _effect_on_gain (ch : combatCharacter) (c : condition) :
    Except PyError (combatCharacter × condition) :=
  if c.name = "grappled" ∨ c.name = "restrained" then
    match c.stored with
    | none => Except.error (PyError.attributeError "condition object has no attribute _stored")
    | some _ =>
      Except.ok ({ ch with speed := 0, movement := 0 },
                 { c with stored := some (some ch.speed) })
  else if c.name = "stabilized" then
    Except.ok ({ ch with death_save_success := 0, death_save_fail := 0 }, c)
  else
    Except.ok (ch, c)

/-- The `condition._effect_on_loss` hook (`combatCharacter.py` lines
1329-1351).  Losing grappled or restrained writes the snapshotted value
`_stored['speed']` back into `char_stats.speed` and
`char_resources.movement` (AttributeError if `_stored` does not exist,
KeyError if it exists but holds no speed); losing dying resets the
death-save tally. -/
def _effect_on_loss (ch : combatCharacter) (c : condition) :
    Except PyError combatCharacter :=
  if c.name = "grappled" ∨ c.name = "restrained" then
    match c.stored with
    | none => Except.error (PyError.attributeError "condition object has no attribute _stored")
    | some none => Except.error (PyError.keyError "speed")
    | some (some v) => Except.ok { ch with speed := v, movement := v }
  else if c.name = "dying" then
    Except.ok { ch with death_save_success := 0, death_save_fail := 0 }
  else
    Except.ok ch

/-- Constructor logic of `condition.__init__` (`combatCharacter.py`
lines 1130-1185): an indefinite condition returns early without ever
creating `_stored`; a timed condition validates its duration string and
ends with an empty `_stored` dict. -/
def mkCondition (name duration : String) : Except PyError condition :=
  if duration = "indefinite" then Except.ok ⟨name, true, none⟩
  else if validDuration duration then Except.ok ⟨name, false, some none⟩
  else Except.error (PyError.valueError "arg duration is not in the right format")

/-- Core of `combatCharacter.remove_condition` (`combatCharacter.py`
lines 1745-1772) for one name, without the cascade part: when the
condition is absent the method logs but, lacking a return statement,
falls through to `self.char_conditions[name]` and raises KeyError;
when present, the loss hook runs and the entry is deleted. -/
def remove_condition_one (ch : combatCharacter) (name : String) :
    Except PyError combatCharacter :=
  match lookupCond ch name with
  | none => Except.error (PyError.keyError name)
  | some c => do
    let ch1 ← _effect_on_loss ch c
    pure { ch1 with char_conditions := eraseCond ch1.char_conditions name }

/-- Full `combatCharacter.remove_condition` (`combatCharacter.py` lines
1745-1772) with its cascades unrolled: removing dying also removes
unconscious, and removing any of paralyzed/petrified/stunned/unconscious
also removes incapacitated.  The nested removals follow the same method
body; the chain bottoms out because incapacitated itself cascades to
nothing. -/
def remove_condition (ch : combatCharacter) (name : String) :
    Except PyError combatCharacter := do
  let ch2 ← remove_condition_one ch name
  let ch3 ←
    if name = "dying" then do
      let a ← remove_condition_one ch2 "unconscious"
      remove_condition_one a "incapacitated"
    else pure ch2
  if name = "paralyzed" ∨ name = "petrified" ∨ name = "stunned" ∨ name = "unconscious" then
    remove_condition_one ch3 "incapacitated"
  else pure ch3

/-- The already-present branch of `combatCharacter.add_condition`
(`combatCharacter.py` lines 1715-1720): `condition.add_time` is a no-op
for an indefinite condition; for a timed condition it parses the
duration (raising ValueError on a malformed string — note the string
`'indefinite'` itself fails the `# unit` format check of `add_time`)
and then only mutates the untracked `remaining` field. -/
def addTimeExisting (c : condition) (duration : String) (ch : combatCharacter) :
    Except PyError combatCharacter :=
  if c.indefinite then Except.ok ch
  else if validDuration duration then Except.ok ch
  else Except.error (PyError.valueError "arg time_passed is not in the right format")

/-- The fresh-condition part of `combatCharacter.add_condition`
(`combatCharacter.py` lines 1722-1730): construct the condition, store
it in the dict and run the gain hook.  (In the source the hook runs just
after the dict insertion and mutates the stored object in place; the
hook touches no other condition, so building the final object first and
then inserting it yields the same state.) -/
def add_condition_new (ch : combatCharacter) (name duration : String) :
    Except PyError combatCharacter := do
  let c0 ← mkCondition name duration
  let (ch1, c1) ← _effect_on_gain ch c0
  pure { ch1 with char_conditions := ch1.char_conditions ++ [c1] }

/-- The `add_condition` body for a condition name that triggers no
cascade (every name outside dying/paralyzed/petrified/stunned/
unconscious/incapacitated). -/
def add_condition_simple (ch : combatCharacter) (name duration : String) :
    Except PyError combatCharacter :=
  match lookupCond ch name with
  | some c => addTimeExisting c duration ch
  | none => add_condition_new ch name duration

/-- The `add_condition` body at name `incapacitated` (its only cascade,
`combatCharacter.py` lines 1741-1742, removes dodge — which raises
KeyError through the missing-return bug of `remove_condition` whenever
the character is not dodging). -/
def add_condition_incapacitated (ch : combatCharacter) :
    Except PyError combatCharacter :=
  match lookupCond ch "incapacitated" with
  | some c => addTimeExisting c "indefinite" ch
  | none => do
    let ch2 ← add_condition_new ch "incapacitated" "indefinite"
    remove_condition ch2 "dodge"

/-- The `add_condition` body at name `unconscious` (cascades: gain
incapacitated, gain prone; `combatCharacter.py` lines 1735-1738). -/
def add_condition_unconscious (ch : combatCharacter) :
    Except PyError combatCharacter :=
  match lookupCond ch "unconscious" with
  | some c => addTimeExisting c "indefinite" ch
  | none => do
    let ch2 ← add_condition_new ch "unconscious" "indefinite"
    let ch3 ← add_condition_incapacitated ch2
    add_condition_simple ch3 "prone" "indefinite"

/-- Full `combatCharacter.add_condition` (`combatCharacter.py` lines
1700-1743) with the bounded cascade recursion unrolled through the
helpers above: if the condition is already present only `add_time` runs;
otherwise the condition is created (gain hook included) and then dying
adds unconscious, the incapacitating four add incapacitated, unconscious
adds prone, and incapacitated removes dodge. -/
def add_condition (ch : combatCharacter) (name duration : String) :
    Except PyError combatCharacter :=
  match lookupCond ch name with
  | some c => addTimeExisting c duration ch
  | none => do
    let ch2 ← add_condition_new ch name duration
    let ch3 ← if name = "dying" then add_condition_unconscious ch2 else pure ch2
    let ch4 ←
      if name = "paralyzed" ∨ name = "petrified" ∨ name = "stunned" ∨ name = "unconscious" then
        add_condition_incapacitated ch3
      else pure ch3
    let ch5 ← if name = "unconscious" then add_condition_simple ch4 "prone" "indefinite" else pure ch4
    if name = "incapacitated" then remove_condition ch5 "dodge" else pure ch5

/-- The `resources.heal_hp` method (`combatCharacter.py` lines 780-806):
healing a dead character is a logged early return of 0 (no exception);
a negative amount heals to full; otherwise HP is clamped at max; and if
the new HP is positive a dying condition is removed.  Returns the new
character state together with the returned HP value. -/
def heal_hp (ch : combatCharacter) (amount : Int) :
    Except PyError (combatCharacter × Int) :=
  if hasCond ch "death" then Except.ok (ch, 0)
  else
    let ch1 :=
      if amount < 0 then { ch with hp := ch.max_hp }
      else { ch with hp := min ch.max_hp (ch.hp + amount) }
    if ch1.hp > 0 && hasCond ch1 "dying" then do
      let ch2 ← remove_condition ch1 "dying"
      pure (ch2, ch2.hp)
    else pure (ch1, ch1.hp)

/-- The `resources.remove_hp` method (`combatCharacter.py` lines
808-839): a negative amount is a ValueError; HP is clamped at 0; on
reaching 0, a death-save-eligible character (team pc, or with the
important stat property) gains death when the absolute remainder is at
least max HP and dying otherwise, while anyone else gains death.
Returns the new character state together with the returned HP value. -/
def remove_hp (ch : combatCharacter) (amount : Int) :
    Except PyError (combatCharacter × Int) :=
  if amount < 0 then Except.error (PyError.valueError "arg amount must be non-negative")
  else
    let remainder := ch.hp - amount
    let ch1 := { ch with hp := max remainder 0 }
    if ch1.hp = 0 then do
      let ch2 ←
        if ch1.team = "pc" ∨ "important" ∈ ch1.property then
          if |remainder| ≥ ch1.max_hp then add_condition ch1 "death" "indefinite"
          else add_condition ch1 "dying" "indefinite"
        else add_condition ch1 "death" "indefinite"
      pure (ch2, ch2.hp)
    else pure (ch1, ch1.hp)

/-- The `resources._gain_death_save` method (`combatCharacter.py` lines
989-1015): one success or `count` failures are added to the tally; three
successes add stabilized, three failures remove dying and add death, and
otherwise a fresh failure while stabilized removes stabilized. -/
def _gain_death_save (ch : combatCharacter) (success : Bool) (count : Int) :
    Except PyError combatCharacter :=
  let ch1 :=
    if success then { ch with death_save_success := ch.death_save_success + 1 }
    else { ch with death_save_fail := ch.death_save_fail + (if count = 1 then 1 else 2) }
  if ch1.death_save_success ≥ 3 then add_condition ch1 "stabilized" "indefinite"
  else if ch1.death_save_fail ≥ 3 then do
    let ch2 ← remove_condition ch1 "dying"
    add_condition ch2 "death" "indefinite"
  else if ch1.death_save_fail > 0 && hasCond ch1 "stabilized" then
    remove_condition ch1 "stabilized"
  else pure ch1

/-- The `resources.do_death_save` method (`combatCharacter.py` lines
1017-1050), with the d20 result passed in as `roll`: an Exception if the
character is not dying, a no-op result if already stabilized, a natural
20 heals 1 HP, a roll of at least 10 is a success, a natural 1 counts
two failures, anything else one failure.  Returns the state and the
returned success/fail dict. -/
def do_death_save (ch : combatCharacter) (roll : Int) :
    Except PyError (combatCharacter × Int × Int) :=
  if !hasCond ch "dying" then
    Except.error (PyError.exception "cannot do death save on character that is not dying")
  else if hasCond ch "stabilized" then Except.ok (ch, 0, 0)
  else if roll = 20 then do
    let (ch1, _) ← heal_hp ch 1
    pure (ch1, 0, 0)
  else do
    let ch1 ←
      if roll ≥ 10 then _gain_death_save ch true 1
      else if roll = 1 then _gain_death_save ch false 2
      else _gain_death_save ch false 1
    pure (ch1, ch1.death_save_success, ch1.death_save_fail)

/-- Damage adjustment for one entry of the damage dict inside
`combatCharacter.take_damage` (`combatCharacter.py` lines 1682-1692):
a petrified target adds half the value again (this happens before the
immunity check and regardless of it); an immune type contributes
nothing further, a resisted type half, a vulnerable type double, and
anything else the full value. -/
def damage_entry_adjust (ch : combatCharacter) (typ : String) (value : Int) : Int :=
  (if hasCond ch "petrified" then Int.fdiv value 2 else 0)
  + (if typ ∈ ch.imm then 0
     else if typ ∈ ch.res then Int.fdiv value 2
     else if typ ∈ ch.vul then value * 2
     else value)

/-- Total adjusted damage of `combatCharacter.take_damage`
(`combatCharacter.py` lines 1681-1692), folding over the insertion-ordered
damage dict. -/
def total_damage (ch : combatCharacter) (damage : List (String × Int)) : Int :=
  damage.foldl (fun acc e => acc + damage_entry_adjust ch e.fst e.snd) 0

/-- The `combatCharacter.take_damage` method (`combatCharacter.py` lines
1666-1698).  For a dying character, line 1695 calls the bound method
`self.char_resources._gain_death_save(self, False, 2 if was_crit else 1)`
with a stray positional `self`, so Python raises TypeError (the method
accepts 2 to 3 positional arguments and receives 4) before any tally is
changed; otherwise the adjusted total is removed via `remove_hp`.
Returns the state with the returned (total damage, new HP) pair. -/
def take_damage (ch : combatCharacter) (damage : List (String × Int)) (was_crit : Bool) :
    Except PyError (combatCharacter × Int × Int) :=
  let total := total_damage ch damage
  if hasCond ch "dying" then
    Except.error (PyError.typeError
      "_gain_death_save takes from 2 to 3 positional arguments but 4 were given")
  else do
    let (ch1, newHp) ← remove_hp ch total
    pure (ch1, total, newHp)

/-- Loop body of `resources.get_next_available_slot`
(`combatCharacter.py` lines 1097-1102): walk the levels downward from 9,
return 0 as soon as the index drops below `min_level`, and return the
first level with a positive remaining slot count. -/
def slot_search (slots : Int → Int) (min_level : Int) : List Int → Int
  | [] => 0
  | i :: rest =>
    if i < min_level then 0
    else if slots i > 0 then i
    else slot_search slots min_level rest

/-- The `resources.get_next_available_slot` method (`combatCharacter.py`
lines 1080-1103).  `spell_slots` always carries all keys 1-9 (it is a
copy of `char_stats.slots`, built as a full 1-9 dict), so it is modelled
as a function on levels.  A `min_level` outside 1..9 raises ValueError;
the loop runs over `range(9, 0, -1)`. -/
def get_next_available_slot (slots : Int → Int) (min_level : Int) : Except PyError Int :=
  if min_level < 1 ∨ 9 < min_level then
    Except.error (PyError.valueError "arg min_level must be in 1 to 9 inclusive")
  else
    Except.ok (slot_search slots min_level [9, 8, 7, 6, 5, 4, 3, 2, 1])


/-- Inputs of `attack.roll_hit` (`src/attack.py` lines 372-415) other
than the d20 result: the optional per-character critical-threshold
override `char_stats.property['crit_threshold']` (line 404), the `mod`
part of `_hit_conditions` (ability modifier plus situational bonuses,
added to `total_mod` before the roll), the `_hit_proficiency` result and
the static `_hitmod` of the attack (both added after the crit checks,
line 412). -/
structure hitContext where
  crit_threshold_prop : Option Int
  cond_mod : Int
  prof_mod : Int
  hitmod : Int
deriving Repr, DecidableEq

/-- Critical-threshold resolution of `attack.roll_hit` (`src/attack.py`
lines 403-406): the per-character `crit_threshold` property when present,
20 otherwise.  The decision core of `roll_hit` below follows lines
398-414, with the `roll_20` result passed in as `natRoll`: a natural 1
returns `('miss', 0)`; a roll at or above the critical threshold
returns `('hit', 20)`; otherwise the total is the roll
plus all modifiers, tagged `'norm'`. -/
def crit_threshold (ctx : hitContext) : Int :=
  match ctx.crit_threshold_prop with
  | some t => t
  | none => 20

/-- Hit/miss/crit decision of `attack.roll_hit`, with the critical
threshold resolved by `crit_threshold`. -/
def roll_hit (ctx : hitContext) (natRoll : Int) : String × Int :=
  if natRoll = 1 then ("miss", 0)
  else if natRoll ≥ crit_threshold ctx then ("hit", 20)
  else ("norm", natRoll + ctx.cond_mod + ctx.prof_mod + ctx.hitmod)

/-- Hit decision of `action._do_attack` (`src/action.py` lines 452-460):
the attack misses when `roll_hit` reported a critical miss or when the
reported total is below the target armor class, and hits otherwise. -/
def attack_hit_test (roll_result : String × Int) (ac : Int) : Bool :=
  if roll_result.fst = "miss" ∨ roll_result.snd < ac then false else true

/-- One entry of the `attack._damage` list (`src/attack.py` lines
154-159 and 192-199): dice count, die faces, flat modifier, damage
ability tag (an ability name or empty) and damage type. -/
structure damageDice where
  num : Int
  fac : Int
  mod : Int
  abl : String
  typ : String
deriving Repr, DecidableEq

/-- Static attack data used by `attack.roll_damage` and its helpers:
the damage-dice list, the proficiency-group tags `attack._prof` and the
property flags `attack._properties`. -/
structure attackDef where
  damage : List damageDice
  profTags : List String
  properties : List String
deriving Repr, DecidableEq

/-- Fields of the attacking character that `attack.roll_damage` and its
helpers read: the six ability scores and proficiency bonus from
`char_stats`, the `sneak_attack` counter of `char_resources`, the
optional `genies_wrath` entry of `char_resources.miscellaneous`, and
the optional `patron` entry of `char_stats.property`. -/
structure sourceState where
  str : Int
  dex : Int
  con : Int
  int : Int
  wis : Int
  cha : Int
  prof : Int
  sneak_attack : Int
  genies_wrath : Option Int
  patron : Option String
deriving Repr, DecidableEq

/-- The `stats.get_mod` method (`combatCharacter.py` lines 457-481):
ValueError on a non-ability name, otherwise floor((score - 10) / 2) with
the chain ending at charisma. -/
def get_mod (src : sourceState) (ability : String) : Except PyError Int :=
  if ability = "str" then Except.ok (Int.fdiv (src.str - 10) 2)
  else if ability = "dex" then Except.ok (Int.fdiv (src.dex - 10) 2)
  else if ability = "con" then Except.ok (Int.fdiv (src.con - 10) 2)
  else if ability = "int" then Except.ok (Int.fdiv (src.int - 10) 2)
  else if ability = "wis" then Except.ok (Int.fdiv (src.wis - 10) 2)
  else if ability = "cha" then Except.ok (Int.fdiv (src.cha - 10) 2)
  else Except.error (PyError.valueError "is not an ability")

/-- The `attack._conditional_damage` helper (`src/attack.py` lines
421-467): with a truthy `genies_wrath` resource, the patron property is
read (KeyError when absent), its last underscore-separated component
selects a damage type (ValueError otherwise), a damage string
`0d0+prof type` is appended — comprehended as zero dice with the
proficiency bonus as flat modifier — and the charge is spent.  The
`crit` parameter of the source is ignored by the body. -/
def _conditional_damage (src : sourceState) :
    Except PyError (List damageDice × sourceState) :=
  match src.genies_wrath with
  | none => Except.ok ([], src)
  | some gw =>
    if gw ≠ 0 then
      match src.patron with
      | none => Except.error (PyError.keyError "patron")
      | some p =>
        let last := (splitOnChar p '_').getLastD ""
        if last = "dao" then
          Except.ok ([⟨0, 0, src.prof, "", "m_bludgeoning"⟩], { src with genies_wrath := some 0 })
        else if last = "djinni" then
          Except.ok ([⟨0, 0, src.prof, "", "thunder"⟩], { src with genies_wrath := some 0 })
        else if last = "efreeti" then
          Except.ok ([⟨0, 0, src.prof, "", "fire"⟩], { src with genies_wrath := some 0 })
        else if last = "marid" then
          Except.ok ([⟨0, 0, src.prof, "", "cold"⟩], { src with genies_wrath := some 0 })
        else Except.error (PyError.valueError "has an invalid genie patron")
    else Except.ok ([], src)

/-- The `attack._additional_damage` helper (`src/attack.py` lines
469-507): with a truthy `sneak_attack` charge, an eligible weapon
(finesse property or a ranged proficiency tag) and advantage or an
adjacent enemy, the body evaluates `source.char_stats['rogue']` — the
`stats` object supports no subscripting, so Python raises TypeError
before any damage is produced; every other path contributes 0. -/
def _additional_damage (src : sourceState) (atk : attackDef) (adv : Int)
    (adjEnemy : Bool) : Except PyError (Int × sourceState) :=
  if src.sneak_attack ≠ 0 then
    if "finesse" ∈ atk.properties ∨ "simple_ranged_weapon" ∈ atk.profTags
        ∨ "martial_ranged_weapon" ∈ atk.profTags then
      if adv > 0 ∨ adjEnemy then
        Except.error (PyError.typeError "stats object is not subscriptable")
      else Except.ok (0, src)
    else Except.ok (0, src)
  else Except.ok (0, src)

/-- Update of the per-type damage dict in `attack.roll_damage`
(`src/attack.py` lines 544-545 and 568): a new type is appended with a
zero running total before the entry value is added. -/
def bumpType (acc : List (String × Int)) (typ : String) (v : Int) : List (String × Int) :=
  if acc.any (fun p => p.fst = typ) then
    acc.map (fun p => if p.fst = typ then (p.fst, p.snd + v) else p)
  else acc ++ [(typ, v)]

/-- Damage-ability substitution of `attack.roll_damage` (`src/attack.py`
lines 554-558): when the hit roll used a substituted ability
(`attack._last_used` nonempty) and the entry is tagged with a physical
ability, that substituted ability is used instead. -/
def entry_use_ability (lastUsed : String) (d : damageDice) : String :=
  if lastUsed ≠ "" ∧ (d.abl = "str" ∨ d.abl = "dex") then lastUsed else d.abl

/-- Ability-modifier contribution of one damage entry (`src/attack.py`
lines 554-564): resolve the (possibly substituted) ability through
`get_mod` when nonempty, then clamp at 0 for an offhand attack. -/
def entry_ability_mod (src : sourceState) (lastUsed : String) (offhand : Bool)
    (d : damageDice) : Except PyError Int :=
  match (if entry_use_ability lastUsed d ≠ "" then
           get_mod src (entry_use_ability lastUsed d)
         else Except.ok 0) with
  | Except.error e => Except.error e
  | Except.ok am => Except.ok (if offhand then min am 0 else am)

/-- Main loop of `attack.roll_damage` (`src/attack.py` lines 543-569)
over the combined damage list, threading the source state (which
`_additional_damage` may mutate) and the per-type accumulator.
`rollD` stands for the `roll.roll_d` dice primitive as a function of
(faces, dice count); `lastUsed` is `attack._last_used`.  For each entry
the roll is the additional damage plus
`rollD fac ((2 if crit else 1) * num)`, and the entry total is
roll + flat modifier + ability modifier. -/
def roll_damage_go (rollD : Int → Int → Int) (atk : attackDef) (lastUsed : String)
    (crit : Bool) (adv : Int) (offhand adjEnemy : Bool) :
    List damageDice → sourceState → List (String × Int) →
    Except PyError (List (String × Int))
  | [], _, acc => Except.ok acc
  | d :: rest, src, acc =>
    match _additional_damage src atk adv adjEnemy with
    | Except.error e => Except.error e
    | Except.ok (extra, src1) =>
      let roll := extra + rollD d.fac ((if crit then 2 else 1) * d.num)
      match entry_ability_mod src1 lastUsed offhand d with
      | Except.error e => Except.error e
      | Except.ok ability_mod =>
        roll_damage_go rollD atk lastUsed crit adv offhand adjEnemy rest src1
          (bumpType acc d.typ (roll + d.mod + ability_mod))

/-- The `attack.roll_damage` method (`src/attack.py` lines 509-577):
append the conditional damage entries to the static damage list, then
run the main loop starting from an empty per-type dict. -/
def roll_damage (rollD : Int → Int → Int) (src : sourceState) (atk : attackDef)
    (lastUsed : String) (crit : Bool) (adv : Int) (offhand adjEnemy : Bool) :
    Except PyError (List (String × Int)) :=
  match _conditional_damage src with
  | Except.error e => Except.error e
  | Except.ok (condList, src1) =>
    roll_damage_go rollD atk lastUsed crit adv offhand adjEnemy
      (atk.damage ++ condList) src1 []

/-- Double the dice count of every static damage entry of an attack,
leaving flat modifiers, ability tags and all other attack data
unchanged. -/
def double_dice_counts (atk : attackDef) : attackDef :=
  { atk with damage := atk.damage.map (fun d => { d with num := 2 * d.num }) }

/-! ## Fresh characters, reachability and concrete instances -/

/-- A freshly created character (`combatCharacter.__init__` together
with `resources.__init__`, `combatCharacter.py` lines 125-195 and
592-653): full HP, movement equal to speed, zero death-save tally,
empty condition registry. -/
def mk_character (team : String) (max_hp speed : Int)
    (property imm res vul : List String) : combatCharacter :=
  ⟨team, max_hp, speed, property, imm, res, vul, max_hp, speed, 0, 0, []⟩

/-- Character states reachable from a fresh character (with at least
1 max HP) through successful runs of the modelled public operations: the
dodge action of `action._do_auto` (which adds the dodge condition for
one start-of-next-turn), `remove_hp`, `heal_hp`, and `do_death_save`
with an arbitrary d20 result.  An operation run that raises contributes
no new state, since the simulation has no handler for the exception. -/
inductive Reachable : combatCharacter → Prop where
  | init (team : String) (max_hp speed : Int) (property imm res vul : List String)
      (hmax : 1 ≤ max_hp) :
      Reachable (mk_character team max_hp speed property imm res vul)
  | dodge (ch ch2 : combatCharacter) (hr : Reachable ch)
      (hop : add_condition ch "dodge" "1 sont" = Except.ok ch2) : Reachable ch2
  | damage (ch ch2 : combatCharacter) (amount ret : Int) (hr : Reachable ch)
      (hop : remove_hp ch amount = Except.ok (ch2, ret)) : Reachable ch2
  | heal (ch ch2 : combatCharacter) (amount ret : Int) (hr : Reachable ch)
      (hop : heal_hp ch amount = Except.ok (ch2, ret)) : Reachable ch2
  | save (ch ch2 : combatCharacter) (roll s f : Int) (hr : Reachable ch)
      (hop : do_death_save ch roll = Except.ok (ch2, s, f)) : Reachable ch2

/-- The death-state relationship that the code actually maintains on
reachable states: HP stays within bounds; a character at 0 HP carries at
least one of dying/stabilized/death; and a character with positive HP is
neither dying nor dead.  (Stabilized can both coexist with dying at 0 HP
and survive a heal to positive HP, so the stronger exactly-one
partition of the specification does not hold.) -/
def deathStateInv (ch : combatCharacter) : Prop :=
  0 ≤ ch.hp ∧ ch.hp ≤ ch.max_hp ∧ 1 ≤ ch.max_hp ∧
  (ch.hp = 0 →
    hasCond ch "dying" = true ∨ hasCond ch "stabilized" = true ∨ hasCond ch "death" = true) ∧
  (0 < ch.hp → hasCond ch "dying" = false ∧ hasCond ch "death" = false)

/-- The spell-slot table of the docstring example of
`get_next_available_slot`: two level-1 slots, no level-2 or level-3
slots, two level-4 slots, three level-5 slots, nothing above. -/
def exampleSlots : Int → Int := fun i =>
  if i = 1 then 2 else if i = 4 then 2 else if i = 5 then 3 else 0

/-- A dead character: a player character at 0 HP whose condition
registry holds the death condition. -/
def deadCharacter : combatCharacter :=
  ⟨"pc", 10, 30, [], [], [], [], 0, 0, 0, 0, [⟨"death", true, none⟩]⟩

/-- A dying character: a player character at 0 HP holding the dying
condition. -/
def dyingCharacter : combatCharacter :=
  ⟨"pc", 10, 30, [], [], [], [], 0, 30, 0, 0, [⟨"dying", true, none⟩]⟩

/-- A fresh player character with 10 max HP and no conditions. -/
def freshCharacter : combatCharacter :=
  ⟨"pc", 10, 30, [], [], [], [], 10, 30, 0, 0, []⟩

/-- A healthy player character with 12 max HP at 8 HP, no conditions. -/
def woundedCharacter : combatCharacter :=
  ⟨"pc", 12, 30, [], [], [], [], 8, 30, 0, 0, []⟩

/-- The state `remove_hp woundedCharacter 30` produces: 0 HP and the
death condition (the overkill branch). -/
def woundedCharacterDead : combatCharacter :=
  ⟨"pc", 12, 30, [], [], [], [], 0, 30, 0, 0, [⟨"death", true, none⟩]⟩

/-- A dying player character two death-save successes into
stabilizing, carrying the conditions that entering dying grants
(unconscious, incapacitated, prone). -/
def almostStableCharacter : combatCharacter :=
  ⟨"pc", 10, 30, [], [], [], [], 0, 30, 2, 0,
   [⟨"dying", true, none⟩, ⟨"unconscious", true, none⟩, ⟨"incapacitated", true, none⟩,
    ⟨"prone", true, none⟩]⟩

/-- The state the third death-save success produces from
`almostStableCharacter`: stabilized appended and the tally reset to
zero by the stabilized gain hook. -/
def almostStableStabilized : combatCharacter :=
  ⟨"pc", 10, 30, [], [], [], [], 0, 30, 0, 0,
   [⟨"dying", true, none⟩, ⟨"unconscious", true, none⟩, ⟨"incapacitated", true, none⟩,
    ⟨"prone", true, none⟩, ⟨"stabilized", true, none⟩]⟩

/-- An operation trace for the reachability counterexample: a fresh
10-max-HP player character dodges, drops to exactly 0 HP from 10 damage
(entering dying; the dodge makes the incapacitated cascade succeed), and
then rolls 15 on three successive death saves. -/
def stabilizeTrace : Except PyError combatCharacter := do
  let a ← add_condition freshCharacter "dodge" "1 sont"
  let (b, _) ← remove_hp a 10
  let (c, _, _) ← do_death_save b 15
  let (d, _, _) ← do_death_save c 15
  let (e, _, _) ← do_death_save d 15
  pure e

/-- The final state of `stabilizeTrace`: 0 HP with dying and stabilized
both present. -/
def stabilizeTraceResult : combatCharacter :=
  ⟨"pc", 10, 30, [], [], [], [], 0, 30, 0, 0,
   [⟨"dying", true, none⟩, ⟨"unconscious", true, none⟩, ⟨"incapacitated", true, none⟩,
    ⟨"prone", true, none⟩, ⟨"stabilized", true, none⟩]⟩

/-- A character with speed 30 and no conditions, for the
grapple/restrain round trip. -/
def speedyCharacter : combatCharacter :=
  ⟨"pc", 10, 30, [], [], [], [], 10, 24, 0, 0, []⟩

/-! ## Support lemmas about the condition registry -/

lemma lookupCond_eq_none {ch : combatCharacter} {n : String} :
    lookupCond ch n = none ↔ hasCond ch n = false := by
  rw [← Bool.not_eq_true, hasCond]
  simp [lookupCond, List.find?_eq_none, List.any_eq_true]

lemma lookupCond_name {ch : combatCharacter} {n : String} {c : condition}
    (h : lookupCond ch n = some c) : c.name = n := by
  have := List.find?_some h
  simpa using this

lemma hasCond_of_lookup {ch : combatCharacter} {n : String} {c : condition}
    (h : lookupCond ch n = some c) : hasCond ch n = true := by
  have hm := List.mem_of_find?_eq_some h
  have hp := List.find?_some h
  simp only [hasCond, List.any_eq_true]
  exact ⟨c, hm, hp⟩

@[simp] lemma except_bind_ok {α β ε : Type} (a : α) (f : α → Except ε β) :
    (Except.ok a >>= f) = f a := rfl

@[simp] lemma except_bind_err {α β ε : Type} (e : ε) (f : α → Except ε β) :
    ((Except.error e : Except ε α) >>= f) = Except.error e := rfl

@[simp] lemma except_pure {α ε : Type} (a : α) :
    (pure a : Except ε α) = Except.ok a := rfl

lemma hasCond_set (ch : combatCharacter) (l : List condition) (m : String) :
    hasCond { ch with char_conditions := l } m = l.any (fun c => c.name = m) := rfl

lemma any_eraseCond_self (l : List condition) (n : String) :
    (eraseCond l n).any (fun c => c.name = n) = false := by
  simp only [eraseCond, List.any_eq_false, List.mem_filter]
  intro c hc
  simpa using hc.2

lemma any_eraseCond_ne (l : List condition) (n m : String) (h : ¬ m = n) :
    (eraseCond l n).any (fun c => c.name = m) = l.any (fun c => c.name = m) := by
  cases hl : l.any (fun c => c.name = m) with
  | true =>
    simp only [List.any_eq_true] at hl ⊢
    obtain ⟨c, hc, hcm⟩ := hl
    refine ⟨c, List.mem_filter.mpr ⟨hc, ?_⟩, hcm⟩
    have : c.name = m := by simpa using hcm
    simp [eraseCond, this, h]
  | false =>
    simp only [List.any_eq_false, List.mem_filter] at hl ⊢
    intro c hc
    exact hl c (List.mem_filter.mp hc).1

/-- Successful removal of dodge erases exactly the dodge entry (dodge has
no loss effect and no cascade), and can only succeed when dodge was
present. -/
lemma remove_dodge_ok {ch ch2 : combatCharacter}
    (h : remove_condition ch "dodge" = Except.ok ch2) :
    ch2 = { ch with char_conditions := eraseCond ch.char_conditions "dodge" } ∧
    hasCond ch "dodge" = true := by
  unfold remove_condition remove_condition_one at h
  cases hl : lookupCond ch "dodge" with
  | none => rw [hl] at h; simp at h
  | some c =>
    rw [hl] at h
    have hname := lookupCond_name hl
    simp [_effect_on_loss, hname] at h
    exact ⟨h.symm, hasCond_of_lookup hl⟩

/-- Successful gain of death: either it was already present (add_time on
an indefinite condition is a no-op), or the entry is appended; death has
no gain effect and no cascade. -/
lemma add_death_ok {ch ch2 : combatCharacter}
    (h : add_condition ch "death" "indefinite" = Except.ok ch2) :
    (ch2 = ch ∧ hasCond ch "death" = true) ∨
    ch2 = { ch with char_conditions := ch.char_conditions ++ [⟨"death", true, none⟩] } := by
  unfold add_condition at h
  cases hl : lookupCond ch "death" with
  | some c =>
    rw [hl] at h
    simp only [addTimeExisting] at h
    cases hc : c.indefinite with
    | true =>
      rw [hc] at h; simp at h
      exact Or.inl ⟨h.symm, hasCond_of_lookup hl⟩
    | false =>
      rw [hc] at h
      simp [show validDuration "indefinite" = false from by decide] at h
  | none =>
    rw [hl] at h
    simp [add_condition_new, mkCondition, _effect_on_gain] at h
    exact Or.inr h.symm

/-- Successful gain of stabilized: either it was already present, or the
entry is appended and the gain hook resets the death-save tally;
stabilized has no cascade. -/
lemma add_stabilized_ok {ch ch2 : combatCharacter}
    (h : add_condition ch "stabilized" "indefinite" = Except.ok ch2) :
    (ch2 = ch ∧ hasCond ch "stabilized" = true) ∨
    ch2 = { ch with
            death_save_success := 0,
            death_save_fail := 0,
            char_conditions := ch.char_conditions ++ [⟨"stabilized", true, none⟩] } := by
  unfold add_condition at h
  cases hl : lookupCond ch "stabilized" with
  | some c =>
    rw [hl] at h
    simp only [addTimeExisting] at h
    cases hc : c.indefinite with
    | true =>
      rw [hc] at h; simp at h
      exact Or.inl ⟨h.symm, hasCond_of_lookup hl⟩
    | false =>
      rw [hc] at h
      simp [show validDuration "indefinite" = false from by decide] at h
  | none =>
    rw [hl] at h
    simp [add_condition_new, mkCondition, _effect_on_gain] at h
    exact Or.inr h.symm

/-- Successful gain of prone (through the no-cascade body): either it was
already present, or the entry is appended; prone has no gain effect. -/
lemma add_prone_ok {ch ch2 : combatCharacter}
    (h : add_condition_simple ch "prone" "indefinite" = Except.ok ch2) :
    (ch2 = ch ∧ hasCond ch "prone" = true) ∨
    ch2 = { ch with char_conditions := ch.char_conditions ++ [⟨"prone", true, none⟩] } := by
  unfold add_condition_simple at h
  cases hl : lookupCond ch "prone" with
  | some c =>
    rw [hl] at h
    simp only [addTimeExisting] at h
    cases hc : c.indefinite with
    | true =>
      rw [hc] at h; simp at h
      exact Or.inl ⟨h.symm, hasCond_of_lookup hl⟩
    | false =>
      rw [hc] at h
      simp [show validDuration "indefinite" = false from by decide] at h
  | none =>
    rw [hl] at h
    simp [add_condition_new, mkCondition, _effect_on_gain] at h
    exact Or.inr h.symm

/-- Successful gain of incapacitated: either it was already present, or
the entry is appended and the dodge-removal cascade fires, which
requires dodge to have been present (otherwise `remove_condition`
raises KeyError) and erases it. -/
lemma add_incap_ok {ch ch2 : combatCharacter}
    (h : add_condition_incapacitated ch = Except.ok ch2) :
    (ch2 = ch ∧ hasCond ch "incapacitated" = true) ∨
    ch2 = { ch with
            char_conditions :=
              eraseCond (ch.char_conditions ++ [⟨"incapacitated", true, none⟩]) "dodge" } := by
  unfold add_condition_incapacitated at h
  cases hl : lookupCond ch "incapacitated" with
  | some c =>
    rw [hl] at h
    simp only [addTimeExisting] at h
    cases hc : c.indefinite with
    | true =>
      rw [hc] at h; simp at h
      exact Or.inl ⟨h.symm, hasCond_of_lookup hl⟩
    | false =>
      rw [hc] at h
      simp [show validDuration "indefinite" = false from by decide] at h
  | none =>
    rw [hl] at h
    simp only [add_condition_new, mkCondition, _effect_on_gain] at h
    simp at h
    obtain ⟨hd, -⟩ := remove_dodge_ok h
    exact Or.inr hd

lemma hasCond_append_cond (ch : combatCharacter) (c : condition) (m : String) :
    hasCond { ch with char_conditions := ch.char_conditions ++ [c] } m
      = (hasCond ch m || decide (c.name = m)) := by
  simp [hasCond, List.any_append]

/-- Successful gain of unconscious preserves HP and max HP, and keeps
every condition other than dodge (the incapacitated cascade may erase
dodge). -/
lemma add_unconscious_props {ch ch2 : combatCharacter}
    (h : add_condition_unconscious ch = Except.ok ch2) :
    ch2.hp = ch.hp ∧ ch2.max_hp = ch.max_hp ∧
    (∀ m, ¬ m = "dodge" → hasCond ch m = true → hasCond ch2 m = true) := by
  unfold add_condition_unconscious at h
  cases hl : lookupCond ch "unconscious" with
  | some c =>
    rw [hl] at h
    simp only [addTimeExisting] at h
    cases hc : c.indefinite with
    | true =>
      rw [hc] at h; simp at h
      subst h; exact ⟨rfl, rfl, fun m _ hm => hm⟩
    | false =>
      rw [hc] at h
      simp [show validDuration "indefinite" = false from by decide] at h
  | none =>
    rw [hl] at h
    simp only [add_condition_new, mkCondition, _effect_on_gain] at h
    simp at h
    cases hi : add_condition_incapacitated
        { ch with char_conditions := ch.char_conditions ++ [⟨"unconscious", true, none⟩] } with
    | error e => rw [hi] at h; simp at h
    | ok ch3 =>
      rw [hi] at h; simp at h
      have hstep3 :
          ch3.hp = ch.hp ∧ ch3.max_hp = ch.max_hp ∧
          (∀ m, ¬ m = "dodge" → hasCond ch m = true → hasCond ch3 m = true) := by
        rcases add_incap_ok hi with ⟨h3, -⟩ | h3
        · subst h3
          refine ⟨rfl, rfl, fun m _ hm => ?_⟩
          rw [hasCond_append_cond]
          simp [hm]
        · subst h3
          refine ⟨rfl, rfl, fun m hmd hm => ?_⟩
          rw [hasCond_set]
          rw [any_eraseCond_ne _ _ _ hmd]
          simp [List.any_append]
          left
          simpa [hasCond] using hm
      rcases add_prone_ok h with ⟨h2, -⟩ | h2
      · subst h2; exact hstep3
      · subst h2
        refine ⟨hstep3.1, hstep3.2.1, fun m hmd hm => ?_⟩
        rw [hasCond_append_cond]
        simp [hstep3.2.2 m hmd hm]

/-- Successful gain of dying preserves HP and max HP, leaves the
character dying, and keeps every condition other than dodge. -/
lemma add_dying_props {ch ch2 : combatCharacter}
    (h : add_condition ch "dying" "indefinite" = Except.ok ch2) :
    ch2.hp = ch.hp ∧ ch2.max_hp = ch.max_hp ∧ hasCond ch2 "dying" = true ∧
    (∀ m, ¬ m = "dodge" → hasCond ch m = true → hasCond ch2 m = true) := by
  unfold add_condition at h
  cases hl : lookupCond ch "dying" with
  | some c =>
    rw [hl] at h
    simp only [addTimeExisting] at h
    cases hc : c.indefinite with
    | true =>
      rw [hc] at h; simp at h
      subst h
      exact ⟨rfl, rfl, hasCond_of_lookup hl, fun m _ hm => hm⟩
    | false =>
      rw [hc] at h
      simp [show validDuration "indefinite" = false from by decide] at h
  | none =>
    rw [hl] at h
    simp only [add_condition_new, mkCondition, _effect_on_gain] at h
    simp at h
    cases hu : add_condition_unconscious
        { ch with char_conditions := ch.char_conditions ++ [⟨"dying", true, none⟩] } with
    | error e => rw [hu] at h; simp at h
    | ok ch3 =>
      rw [hu] at h; simp at h
      subst h
      obtain ⟨hhp, hmax, hmon⟩ := add_unconscious_props hu
      refine ⟨hhp, hmax, ?_, ?_⟩
      · refine hmon "dying" (by decide) ?_
        rw [hasCond_append_cond]
        simp
      · intro m hmd hm
        refine hmon m hmd ?_
        rw [hasCond_append_cond]
        simp [hm]

/-- Successful removal of dying resets the death-save tally, erases
dying, unconscious and incapacitated, and adds nothing. -/
lemma remove_dying_props {ch ch2 : combatCharacter}
    (h : remove_condition ch "dying" = Except.ok ch2) :
    ch2.hp = ch.hp ∧ ch2.max_hp = ch.max_hp ∧ hasCond ch2 "dying" = false ∧
    (∀ m, hasCond ch2 m = true → hasCond ch m = true) := by
  unfold remove_condition remove_condition_one at h
  cases hl : lookupCond ch "dying" with
  | none => rw [hl] at h; simp at h
  | some c =>
    rw [hl] at h
    have hname := lookupCond_name hl
    simp only [_effect_on_loss, hname] at h
    simp at h
    cases hu : lookupCond
        { ch with
          death_save_success := 0,
          death_save_fail := 0,
          char_conditions := eraseCond ch.char_conditions "dying" } "unconscious" with
    | none => rw [hu] at h; simp at h
    | some c2 =>
      rw [hu] at h
      have hname2 := lookupCond_name hu
      simp only [_effect_on_loss, hname2] at h
      simp at h
      cases hi : lookupCond
          { ch with
            death_save_success := 0,
            death_save_fail := 0,
            char_conditions := eraseCond (eraseCond ch.char_conditions "dying") "unconscious" }
          "incapacitated" with
      | none => rw [hi] at h; simp at h
      | some c3 =>
        rw [hi] at h
        have hname3 := lookupCond_name hi
        simp only [_effect_on_loss, hname3] at h
        simp at h
        subst h
        refine ⟨rfl, rfl, ?_, ?_⟩
        · simp only [hasCond]
          rw [any_eraseCond_ne _ _ _ (by decide)]
          rw [any_eraseCond_ne _ _ _ (by decide)]
          exact any_eraseCond_self _ _
        · intro m hm
          simp only [hasCond] at hm ⊢
          by_cases hmi : m = "incapacitated"
          · subst hmi; rw [any_eraseCond_self] at hm; exact absurd hm (by simp)
          · rw [any_eraseCond_ne _ _ _ hmi] at hm
            by_cases hmu : m = "unconscious"
            · subst hmu; rw [any_eraseCond_self] at hm; exact absurd hm (by simp)
            · rw [any_eraseCond_ne _ _ _ hmu] at hm
              by_cases hmd : m = "dying"
              · subst hmd; rw [any_eraseCond_self] at hm; exact absurd hm (by simp)
              · rw [any_eraseCond_ne _ _ _ hmd] at hm
                exact hm

/-- Successful removal of stabilized erases exactly the stabilized entry
(no loss effect, no cascade) and requires it to have been present. -/
lemma remove_stabilized_ok {ch ch2 : combatCharacter}
    (h : remove_condition ch "stabilized" = Except.ok ch2) :
    ch2 = { ch with char_conditions := eraseCond ch.char_conditions "stabilized" } ∧
    hasCond ch "stabilized" = true := by
  unfold remove_condition remove_condition_one at h
  cases hl : lookupCond ch "stabilized" with
  | none => rw [hl] at h; simp at h
  | some c =>
    rw [hl] at h
    have hname := lookupCond_name hl
    simp [_effect_on_loss, hname] at h
    exact ⟨h.symm, hasCond_of_lookup hl⟩

/-- Gaining dodge for one start-of-next-turn either extends an existing
dodge (a no-op on the tracked state) or appends a timed dodge entry;
dodge has no gain effect and no cascade. -/
lemma add_dodge_ok {ch ch2 : combatCharacter}
    (h : add_condition ch "dodge" "1 sont" = Except.ok ch2) :
    ch2 = ch ∨
    ch2 = { ch with char_conditions := ch.char_conditions ++ [⟨"dodge", false, some none⟩] } := by
  unfold add_condition at h
  cases hl : lookupCond ch "dodge" with
  | some c =>
    rw [hl] at h
    simp only [addTimeExisting] at h
    cases hc : c.indefinite with
    | true => rw [hc] at h; simp at h; exact Or.inl h.symm
    | false =>
      rw [hc] at h
      simp [show validDuration "1 sont" = true from by decide] at h
      exact Or.inl h.symm
  | none =>
    rw [hl] at h
    simp [add_condition_new, mkCondition, _effect_on_gain,
      show validDuration "1 sont" = true from by decide] at h
    exact Or.inr h.symm

/-! ## Preservation of the death-state invariant -/

lemma dodge_preserves {ch ch2 : combatCharacter}
    (hop : add_condition ch "dodge" "1 sont" = Except.ok ch2)
    (hinv : deathStateInv ch) : deathStateInv ch2 := by
  obtain ⟨h0, h1, h2, h3, h4⟩ := hinv
  rcases add_dodge_ok hop with h | h
  · subst h; exact ⟨h0, h1, h2, h3, h4⟩
  · subst h
    refine ⟨h0, h1, h2, ?_, ?_⟩
    · intro hz
      rcases h3 hz with hc | hc | hc
      · left; rw [hasCond_append_cond]; simp [hc]
      · right; left; rw [hasCond_append_cond]; simp [hc]
      · right; right; rw [hasCond_append_cond]; simp [hc]
    · intro hpos
      obtain ⟨hd, he⟩ := h4 hpos
      constructor
      · rw [hasCond_append_cond]; simp [hd]
      · rw [hasCond_append_cond]; simp [he]


lemma remove_hp_preserves {ch ch2 : combatCharacter} {amount ret : Int}
    (hop : remove_hp ch amount = Except.ok (ch2, ret))
    (hinv : deathStateInv ch) : deathStateInv ch2 := by
  obtain ⟨h0, h1, h2, h3, h4⟩ := hinv
  unfold remove_hp at hop
  unfold deathStateInv
  by_cases ha : amount < 0
  · rw [if_pos ha] at hop; simp at hop
  · rw [if_neg ha] at hop
    simp only [] at hop
    split at hop
    next hz =>
      have hdead :
          ∀ chX : combatCharacter,
            add_condition { ch with hp := max (ch.hp - amount) 0 } "death" "indefinite"
              = Except.ok chX →
            (0 ≤ chX.hp ∧ chX.hp ≤ chX.max_hp ∧ 1 ≤ chX.max_hp ∧
              (chX.hp = 0 → hasCond chX "dying" = true ∨ hasCond chX "stabilized" = true ∨
                hasCond chX "death" = true) ∧
              (0 < chX.hp → hasCond chX "dying" = false ∧ hasCond chX "death" = false)) := by
        intro chX hadd
        rcases add_death_ok hadd with ⟨hx, hcx⟩ | hx
        · subst hx
          refine ⟨by simp [hz], by simp [hz]; omega, h2, fun _ => Or.inr (Or.inr hcx), fun hpos => ?_⟩
          simp [hz] at hpos
        · subst hx
          refine ⟨by simp [hz], by simp [hz]; omega, h2, fun _ => ?_, fun hpos => ?_⟩
          · right; right
            rw [hasCond_append_cond]
            simp
          · simp [hz] at hpos
      split at hop
      next helig =>
        split at hop
        next hexc =>
          cases hadd : add_condition { ch with hp := max (ch.hp - amount) 0 } "death" "indefinite" with
          | error e => rw [hadd] at hop; simp at hop
          | ok chX =>
            rw [hadd] at hop
            simp at hop
            obtain ⟨hceq, -⟩ := hop
            subst hceq
            exact hdead _ hadd
        next hexc =>
          cases hadd : add_condition { ch with hp := max (ch.hp - amount) 0 } "dying" "indefinite" with
          | error e => rw [hadd] at hop; simp at hop
          | ok chX =>
            rw [hadd] at hop
            simp at hop
            obtain ⟨hceq, -⟩ := hop
            subst hceq
            obtain ⟨hhp, hmax, hdy, -⟩ := add_dying_props hadd
            simp only [hhp, hmax]
            refine ⟨by simp [hz], by simp [hz]; omega, h2, fun _ => Or.inl hdy, fun hpos => ?_⟩
            simp [hz] at hpos
      next helig =>
        cases hadd : add_condition { ch with hp := max (ch.hp - amount) 0 } "death" "indefinite" with
        | error e => rw [hadd] at hop; simp at hop
        | ok chX =>
          rw [hadd] at hop
          simp at hop
          obtain ⟨hceq, -⟩ := hop
          subst hceq
          exact hdead _ hadd
    next hz =>
      simp at hop
      obtain ⟨hceq, -⟩ := hop
      subst hceq
      have hchpos : 0 < ch.hp := by
        simp at hz
        omega
      refine ⟨by simp, by simp; omega, h2, fun hzz => ?_, fun _ => h4 hchpos⟩
      simp at hzz
      omega

lemma heal_hp_preserves {ch ch2 : combatCharacter} {amount ret : Int}
    (hop : heal_hp ch amount = Except.ok (ch2, ret))
    (hinv : deathStateInv ch) : deathStateInv ch2 := by
  obtain ⟨h0, h1, h2, h3, h4⟩ := hinv
  unfold heal_hp at hop
  unfold deathStateInv
  split at hop
  next hd =>
    simp at hop
    obtain ⟨hceq, -⟩ := hop
    subst hceq
    exact ⟨h0, h1, h2, h3, h4⟩
  next hd =>
    have hd' : hasCond ch "death" = false := by
      revert hd
      cases hasCond ch "death" <;> simp
    by_cases hamt : amount < 0
    · rw [if_pos hamt] at hop
      simp only [] at hop
      split at hop
      next hcnd =>
        cases hrem : remove_condition { ch with hp := ch.max_hp } "dying" with
        | error e => rw [hrem] at hop; simp at hop
        | ok chX =>
          rw [hrem] at hop
          simp at hop
          obtain ⟨hceq, -⟩ := hop
          subst hceq
          obtain ⟨hhp, hmax, hdy, hmon⟩ := remove_dying_props hrem
          have hdeath : hasCond chX "death" = false := by
            cases hdx : hasCond chX "death" with
            | false => rfl
            | true =>
              have := hmon _ hdx
              exact absurd this (by simpa [hasCond] using hd')
          refine ⟨?_, ?_, ?_, fun hzz => ?_, fun _ => ⟨hdy, hdeath⟩⟩
          · rw [hhp]; simp; omega
          · rw [hhp, hmax]
          · rw [hmax]; exact h2
          · rw [hhp] at hzz; simp at hzz; exact absurd hzz (by omega)
      next hcnd =>
        simp at hop
        obtain ⟨hceq, -⟩ := hop
        subst hceq
        refine ⟨by simp; omega, by simp, h2, fun hzz => ?_, fun _ => ⟨?_, hd'⟩⟩
        · simp at hzz; exact absurd hzz (by omega)
        · cases hdx : hasCond ch "dying" with
          | false => exact hdx
          | true =>
            exfalso
            refine hcnd ?_
            rw [Bool.and_eq_true, decide_eq_true_eq]
            refine ⟨?_, hdx⟩
            show (0:Int) < ch.max_hp
            omega
    · rw [if_neg hamt] at hop
      simp only [] at hop
      split at hop
      next hcnd =>
        cases hrem : remove_condition { ch with hp := min ch.max_hp (ch.hp + amount) } "dying" with
        | error e => rw [hrem] at hop; simp at hop
        | ok chX =>
          rw [hrem] at hop
          simp at hop
          obtain ⟨hceq, -⟩ := hop
          subst hceq
          obtain ⟨hhp, hmax, hdy, hmon⟩ := remove_dying_props hrem
          have hdeath : hasCond chX "death" = false := by
            cases hdx : hasCond chX "death" with
            | false => rfl
            | true =>
              have := hmon _ hdx
              exact absurd this (by simpa [hasCond] using hd')
          refine ⟨?_, ?_, ?_, fun hzz => ?_, fun _ => ⟨hdy, hdeath⟩⟩
          · rw [hhp]; simp; omega
          · rw [hhp, hmax]; simp
          · rw [hmax]; exact h2
          · rw [hhp] at hzz; simp at hzz
            simp at hcnd
            exact absurd hzz (by omega)
      next hcnd =>
        simp at hop
        obtain ⟨hceq, -⟩ := hop
        subst hceq
        refine ⟨by simp; omega, by simp, h2, fun hzz => ?_, fun hpos => ⟨?_, hd'⟩⟩
        · simp at hzz
          exact h3 (by omega)
        · cases hdx : hasCond ch "dying" with
          | false => exact hdx
          | true =>
            exfalso
            refine hcnd ?_
            rw [Bool.and_eq_true, decide_eq_true_eq]
            exact ⟨hpos, hdx⟩

lemma gain_death_save_preserves {ch ch2 : combatCharacter} {success : Bool} {count : Int}
    (hop : _gain_death_save ch success count = Except.ok ch2)
    (hinv : deathStateInv ch) (hdy : hasCond ch "dying" = true) : deathStateInv ch2 := by
  obtain ⟨h0, h1, h2, h3, h4⟩ := hinv
  have hz : ch.hp = 0 := by
    rcases lt_or_eq_of_le h0 with hlt | heq
    · exact absurd (h4 hlt).1 (by simp [hdy])
    · omega
  have key : ∀ ch1 : combatCharacter, ch1.hp = ch.hp → ch1.max_hp = ch.max_hp →
      ch1.char_conditions = ch.char_conditions →
      (if ch1.death_save_success ≥ 3 then add_condition ch1 "stabilized" "indefinite"
       else if ch1.death_save_fail ≥ 3 then do
         let y ← remove_condition ch1 "dying"
         add_condition y "death" "indefinite"
       else if ch1.death_save_fail > 0 && hasCond ch1 "stabilized" then
         remove_condition ch1 "stabilized"
       else pure ch1) = Except.ok ch2 →
      deathStateInv ch2 := by
    intro ch1 hhp hmax hconds htail
    have hdy1 : hasCond ch1 "dying" = true := by
      rw [hasCond, hconds]; exact hdy
    unfold deathStateInv
    split at htail
    · rcases add_stabilized_ok htail with ⟨hx, hcx⟩ | hx
      · subst hx
        refine ⟨by omega, by omega, by omega, fun _ => Or.inr (Or.inl hcx), fun hpos => ?_⟩
        exact absurd hpos (by omega)
      · subst hx
        refine ⟨by simp; omega, by simp; omega, by simp; omega, fun _ => ?_, fun hpos => ?_⟩
        · right; left
          simp [hasCond]
        · exact absurd hpos (by simp; omega)
    · split at htail
      · cases hrem : remove_condition ch1 "dying" with
        | error e => rw [hrem] at htail; simp at htail
        | ok y =>
          rw [hrem] at htail
          simp only [except_bind_ok] at htail
          obtain ⟨yhp, ymax, -, -⟩ := remove_dying_props hrem
          rcases add_death_ok htail with ⟨hx, hcx⟩ | hx
          · subst hx
            refine ⟨by omega, by omega, by omega, fun _ => Or.inr (Or.inr hcx), fun hpos => ?_⟩
            exact absurd hpos (by omega)
          · subst hx
            refine ⟨by simp; omega, by simp; omega, by simp; omega, fun _ => ?_, fun hpos => ?_⟩
            · right; right
              simp [hasCond]
            · exact absurd hpos (by simp; omega)
      · split at htail
        · obtain ⟨hx, -⟩ := remove_stabilized_ok htail
          subst hx
          refine ⟨by simp; omega, by simp; omega, by simp; omega, fun _ => Or.inl ?_, fun hpos => ?_⟩
          · simp only [hasCond]
            rw [any_eraseCond_ne _ _ _ (by decide)]
            exact hdy1
          · exact absurd hpos (by simp; omega)
        · simp at htail
          subst htail
          refine ⟨by omega, by omega, by omega, fun _ => Or.inl hdy1, fun hpos => ?_⟩
          exact absurd hpos (by omega)
  unfold _gain_death_save at hop
  simp only [] at hop
  cases success with
  | true =>
    exact key { ch with death_save_success := ch.death_save_success + 1 } rfl rfl rfl hop
  | false =>
    exact key
      { ch with death_save_fail := ch.death_save_fail + (if count = 1 then 1 else 2) }
      rfl rfl rfl hop

lemma do_death_save_preserves {ch ch2 : combatCharacter} {roll s f : Int}
    (hop : do_death_save ch roll = Except.ok (ch2, s, f))
    (hinv : deathStateInv ch) : deathStateInv ch2 := by
  unfold do_death_save at hop
  split at hop
  · simp at hop
  next hdy' =>
    have hdy : hasCond ch "dying" = true := by
      revert hdy'
      cases hasCond ch "dying" <;> simp
    split at hop
    next hst =>
      simp at hop
      obtain ⟨hceq, -⟩ := hop
      subst hceq
      exact hinv
    next hst =>
      split at hop
      next hr20 =>
        cases hheal : heal_hp ch 1 with
        | error e => rw [hheal] at hop; simp at hop
        | ok p =>
          obtain ⟨p1, p2⟩ := p
          rw [hheal] at hop
          simp at hop
          obtain ⟨hceq, -⟩ := hop
          subst hceq
          exact heal_hp_preserves hheal hinv
      next hr20 =>
        split at hop
        next hge =>
          cases hg : _gain_death_save ch true 1 with
          | error e => rw [hg] at hop; simp at hop
          | ok chX =>
            rw [hg] at hop
            simp at hop
            obtain ⟨hceq, -⟩ := hop
            subst hceq
            exact gain_death_save_preserves hg hinv hdy
        next hge =>
          split at hop
          next hr1 =>
            cases hg : _gain_death_save ch false 2 with
            | error e => rw [hg] at hop; simp at hop
            | ok chX =>
              rw [hg] at hop
              simp at hop
              obtain ⟨hceq, -⟩ := hop
              subst hceq
              exact gain_death_save_preserves hg hinv hdy
          next hr1 =>
            cases hg : _gain_death_save ch false 1 with
            | error e => rw [hg] at hop; simp at hop
            | ok chX =>
              rw [hg] at hop
              simp at hop
              obtain ⟨hceq, -⟩ := hop
              subst hceq
              exact gain_death_save_preserves hg hinv hdy


/-- Claim C4 (amended).  For every character state reachable from a
fresh character through the dodge action, `remove_hp`, `heal_hp` and
`do_death_save`: HP stays within `0 ≤ hp ≤ max_hp`; `hp = 0` implies at
least one of dying/stabilized/death is active; and `hp > 0` implies
neither dying nor death is active.  The original exactly-one
partition fails: stabilized and dying coexist after three death-save
successes (see the counterexample trace), and stabilized survives a
heal to positive HP. -/
theorem death_state_machine_invariant (ch : combatCharacter) (h : Reachable ch) :
    deathStateInv ch := by
  induction h with
  | init team max_hp speed property imm res vul hmax =>
    unfold deathStateInv mk_character
    refine ⟨by simp; omega, by simp, by simpa using hmax, fun hzz => ?_, fun _ => ?_⟩
    · simp at hzz
      omega
    · constructor <;> simp [hasCond]
  | dodge ch ch2 hr hop ih => exact dodge_preserves hop ih
  | damage ch ch2 amount ret hr hop ih => exact remove_hp_preserves hop ih
  | heal ch ch2 amount ret hr hop ih => exact heal_hp_preserves hop ih
  | save ch ch2 roll s f hr hop ih => exact do_death_save_preserves hop ih

/-! ## Claim theorems -/

/-- Claim C4 (counterexample to the claim as stated).  The concrete
reachable trace — fresh 10-max-HP player character, dodge action, 10
damage, then three death saves rolling 15 — ends in a state with 0 HP
holding BOTH dying and stabilized, so "exactly one of
dying/stabilized/death" is false, and the third `do_death_save`
(through `_gain_death_save`) is an operation that leaves a character
holding dying and stabilized at once. -/
theorem dying_and_stabilized_coexist :
    stabilizeTrace = Except.ok stabilizeTraceResult ∧
    stabilizeTraceResult.hp = 0 ∧
    hasCond stabilizeTraceResult "dying" = true ∧
    hasCond stabilizeTraceResult "stabilized" = true := by decide

/-- Witness for `death_state_machine_invariant` at a concrete fresh
character. -/
theorem death_state_machine_invariant_witness :
    deathStateInv (mk_character "pc" 5 30 [] [] [] []) :=
  death_state_machine_invariant _ (Reachable.init "pc" 5 30 [] [] [] [] (by decide))

/-- Claim C1 (code bug).  `take_damage` on a character with the dying
condition raises TypeError — line 1695 of `combatCharacter.py` passes an
extra positional `self` to the bound method `_gain_death_save` — instead
of adding one death-save failure (two on a crit) and returning HP 0 as
the claim (and the spec) state.  Both the crit and the non-crit calls
fail identically. -/
theorem take_damage_dying_raises_type_error :
    take_damage dyingCharacter [("slashing", 3)] false =
      Except.error (PyError.typeError
        "_gain_death_save takes from 2 to 3 positional arguments but 4 were given") ∧
    take_damage dyingCharacter [("slashing", 3)] true =
      Except.error (PyError.typeError
        "_gain_death_save takes from 2 to 3 positional arguments but 4 were given") := by decide

/-- Claim C2 (code bug).  `remove_condition` on an absent condition
logs but — missing the return statement — falls through to the dict
lookup and raises KeyError; consequently gaining incapacitated on a
character that is not dodging raises KeyError from the dodge-removal
cascade instead of completing. -/
theorem remove_condition_missing_raises_key_error :
    remove_condition freshCharacter "dodge" = Except.error (PyError.keyError "dodge") ∧
    add_condition freshCharacter "incapacitated" "indefinite" =
      Except.error (PyError.keyError "dodge") := by decide

/-- Claim C3 (code bug).  `get_next_available_slot` walks the slot
levels downward from 9, so on the docstring example
`{1:2, 2:0, 3:0, 4:2, 5:3}` with `min_level = 3` it returns the highest
available level 5, not the lowest available level 4 promised by its own
docstring and the spec. -/
theorem get_next_available_slot_returns_highest :
    get_next_available_slot exampleSlots 3 = Except.ok 5 ∧
    ¬ get_next_available_slot exampleSlots 3 = Except.ok 4 := by decide

/-- Claim C6 (code bug).  `remove_hp` that brings an eligible character
to 0 HP with excess below max HP starts granting dying, but the cascade
(dying → unconscious → incapacitated → remove dodge) raises KeyError
because the character is not dodging; the overkill branch (excess at
least max HP) completes and grants death as claimed. -/
theorem remove_hp_dying_branch_raises_key_error :
    remove_hp woundedCharacter 8 = Except.error (PyError.keyError "dodge") ∧
    remove_hp woundedCharacter 30 = Except.ok (woundedCharacterDead, 0) ∧
    hasCond woundedCharacterDead "death" = true := by decide

/-- Claim C7 (counterexample to the claim as stated).  `heal_hp` on a
dead character does NOT surface an invalid-operation error: it returns
`Except.ok` — a logged early return of 0 with the character unchanged. -/
theorem heal_hp_dead_returns_ok :
    heal_hp deadCharacter 5 = Except.ok (deadCharacter, 0) := by decide

/-- Claim C7 (amended).  For every character with the death condition
and every amount, `heal_hp` is a silent no-op: it logs, returns 0, and
leaves the character (in particular its HP) unchanged; no exception or
error value reaches the caller. -/
theorem heal_hp_dead_silent_noop (ch : combatCharacter) (amount : Int)
    (hd : hasCond ch "death" = true) :
    heal_hp ch amount = Except.ok (ch, 0) := by
  unfold heal_hp
  rw [if_pos hd]

/-- Witness for `heal_hp_dead_silent_noop` at a concrete dead
character. -/
theorem heal_hp_dead_silent_noop_witness :
    heal_hp deadCharacter 7 = Except.ok (deadCharacter, 0) :=
  heal_hp_dead_silent_noop deadCharacter 7 (by decide)

/-- Claim C5 (counterexample to the claim as stated).  A dying character
with two death-save successes gains the third: stabilized is added, but
the tally is RESET to zero by the stabilized gain hook — it does not
stay at three successes as the claim asserts. -/
theorem stabilize_transition_resets_tally :
    _gain_death_save almostStableCharacter true 1 = Except.ok almostStableStabilized ∧
    almostStableStabilized.death_save_success = 0 ∧
    ¬ almostStableStabilized.death_save_success = 3 ∧
    hasCond almostStableStabilized "stabilized" = true := by decide

/-- Claim C5 (amended).  When a dying character on two death-save
successes gains a third success, `_gain_death_save` adds the stabilized
condition, and the stabilized gain effect resets the death-save tally
to zero as part of this same transition. -/
theorem third_success_stabilizes_and_resets_tally (ch : combatCharacter)
    (hdy : hasCond ch "dying" = true) (hs : ch.death_save_success = 2)
    (hst : lookupCond ch "stabilized" = none) :
    _gain_death_save ch true 1 =
      Except.ok { ch with
                  death_save_success := 0,
                  death_save_fail := 0,
                  char_conditions := ch.char_conditions ++ [⟨"stabilized", true, none⟩] } := by
  unfold _gain_death_save
  simp only [if_true]
  have hcond : ({ ch with death_save_success := ch.death_save_success + 1 } :
      combatCharacter).death_save_success ≥ 3 := by
    simp [hs]
  rw [if_pos hcond]
  unfold add_condition
  rw [show lookupCond { ch with death_save_success := ch.death_save_success + 1 } "stabilized"
      = none from hst]
  simp [add_condition_new, mkCondition, _effect_on_gain]

/-- Witness for `third_success_stabilizes_and_resets_tally` at the
concrete almost-stable character. -/
theorem third_success_stabilizes_and_resets_tally_witness :
    _gain_death_save almostStableCharacter true 1 =
      Except.ok { almostStableCharacter with
                  death_save_success := 0,
                  death_save_fail := 0,
                  char_conditions :=
                    almostStableCharacter.char_conditions ++ [⟨"stabilized", true, none⟩] } :=
  third_success_stabilizes_and_resets_tally almostStableCharacter
    (by decide) (by decide) (by decide)

/-- Claim C8 (counterexample to the claim as stated).  A natural 20
(critical) reports the fixed total 20, and `_do_attack` then compares
that 20 against the armor class — so against AC 21 the critical roll is
scored as a miss, contradicting "a hit regardless of the target's armor
class". -/
theorem crit_roll_misses_high_ac :
    roll_hit ⟨none, 3, 2, 1⟩ 20 = ("hit", 20) ∧
    attack_hit_test (roll_hit ⟨none, 3, 2, 1⟩ 20) 21 = false := by decide

/-- Claim C8 (amended).  A natural 1 is always a miss regardless of all
modifiers and of the armor class; a natural roll at or above the
critical threshold (property override, default 20) produces a hit
exactly when the target armor class is at most 20 (the fixed total that
`roll_hit` reports for a critical). -/
theorem natural_one_and_crit_hit_behavior (ctx : hitContext) (natRoll ac : Int) :
    (natRoll = 1 → attack_hit_test (roll_hit ctx natRoll) ac = false) ∧
    (¬ natRoll = 1 → crit_threshold ctx ≤ natRoll →
      (attack_hit_test (roll_hit ctx natRoll) ac = true ↔ ac ≤ 20)) := by
  constructor
  · intro h1
    subst h1
    simp [roll_hit, attack_hit_test]
  · intro h1 hcrit
    unfold roll_hit
    rw [if_neg h1, if_pos hcrit]
    unfold attack_hit_test
    by_cases hac : (20 : Int) < ac
    · simp [hac]
    · simp [hac]
      omega

/-- Witness for `natural_one_and_crit_hit_behavior`: a natural 20
against AC 15 with no modifiers hits. -/
theorem natural_one_and_crit_hit_behavior_witness :
    attack_hit_test (roll_hit ⟨none, 0, 0, 0⟩ 20) 15 = true :=
  ((natural_one_and_crit_hit_behavior ⟨none, 0, 0, 0⟩ 20 15).2 (by decide) (by decide)).mpr
    (by decide)

lemma find?_append_none {α : Type} {p : α → Bool} {l1 l2 : List α}
    (h : l1.find? p = none) : (l1 ++ l2).find? p = l2.find? p := by
  induction l1 with
  | nil => rfl
  | cons a l ih =>
    rw [List.find?_cons] at h
    rw [List.cons_append, List.find?_cons]
    cases hp : p a with
    | true => rw [hp] at h; simp at h
    | false => rw [hp] at h; exact ih h

lemma eraseCond_of_absent {l : List condition} {n : String}
    (h : l.find? (fun c => c.name = n) = none) : eraseCond l n = l := by
  rw [List.find?_eq_none] at h
  rw [eraseCond]
  apply List.filter_eq_self.mpr
  intro c hc
  simpa using h c hc

lemma eraseCond_append (l1 l2 : List condition) (n : String) :
    eraseCond (l1 ++ l2) n = eraseCond l1 n ++ eraseCond l2 n := by
  simp [eraseCond]

lemma eraseCond_cons (c : condition) (l : List condition) (n : String) :
    eraseCond (c :: l) n =
      (if c.name = n then eraseCond l n else c :: eraseCond l n) := by
  by_cases h : c.name = n
  · simp [eraseCond, h, List.filter_cons]
  · simp [eraseCond, h, List.filter_cons]

lemma eraseCond_nil (n : String) : eraseCond [] n = [] := rfl

lemma restrain_gain_at (ch : combatCharacter) (name duration : String)
    (hname : name = "grappled" ∨ name = "restrained")
    (habs : lookupCond ch name = none)
    (hdur : validDuration duration = true) :
    add_condition ch name duration =
      Except.ok { ch with
                  speed := 0,
                  movement := 0,
                  char_conditions :=
                    ch.char_conditions ++ [⟨name, false, some (some ch.speed)⟩] } := by
  have hnotindef : ¬ duration = "indefinite" := by
    intro h
    rw [h] at hdur
    exact absurd hdur (by decide)
  rcases hname with hn | hn <;>
    (subst hn
     unfold add_condition
     rw [habs]
     unfold add_condition_new mkCondition
     rw [if_neg hnotindef, if_pos hdur]
     simp [_effect_on_gain])

lemma restrain_removal_at (ch : combatCharacter) (name : String)
    (hname : name = "grappled" ∨ name = "restrained")
    (habs : lookupCond ch name = none) :
    remove_condition
        { ch with
          speed := 0,
          movement := 0,
          char_conditions := ch.char_conditions ++ [⟨name, false, some (some ch.speed)⟩] }
        name =
      Except.ok { ch with movement := ch.speed } := by
  rcases hname with hn | hn <;>
    (subst hn
     rw [lookupCond] at habs
     have herase := eraseCond_of_absent habs
     unfold remove_condition remove_condition_one lookupCond
     simp only [find?_append_none habs]
     simp only [List.find?_cons]
     simp [_effect_on_loss, eraseCond_append, eraseCond_cons, eraseCond_nil, herase])

/-- Claim C10 (amended).  Gaining grappled or restrained with any TIMED
duration snapshots the current speed into the condition, zeroes
`char_stats.speed` and `char_resources.movement`, and removing the
condition restores both speed and movement to the snapshotted value —
the round trip returns the character to its original state except that
movement is set to the full speed.  (With duration `'indefinite'` the
gain hook instead raises AttributeError — see the counterexample — so
the unqualified claim fails.) -/
theorem restrain_roundtrip_restores_speed (ch : combatCharacter) (name duration : String)
    (hname : name = "grappled" ∨ name = "restrained")
    (habs : lookupCond ch name = none)
    (hdur : validDuration duration = true) :
    add_condition ch name duration =
      Except.ok { ch with
                  speed := 0,
                  movement := 0,
                  char_conditions :=
                    ch.char_conditions ++ [⟨name, false, some (some ch.speed)⟩] } ∧
    remove_condition
        { ch with
          speed := 0,
          movement := 0,
          char_conditions := ch.char_conditions ++ [⟨name, false, some (some ch.speed)⟩] }
        name =
      Except.ok { ch with movement := ch.speed } :=
  ⟨restrain_gain_at ch name duration hname habs hdur,
   restrain_removal_at ch name hname habs⟩

/-- Witness for `restrain_roundtrip_restores_speed`: a speed-30
character gains restrained for 1 minute, dropping speed and movement to
0, and removal brings movement back to 30. -/
theorem restrain_roundtrip_restores_speed_witness :
    add_condition speedyCharacter "restrained" "1 minute" =
      Except.ok { speedyCharacter with
                  speed := 0,
                  movement := 0,
                  char_conditions :=
                    speedyCharacter.char_conditions ++
                      [⟨"restrained", false, some (some speedyCharacter.speed)⟩] } ∧
    remove_condition
        { speedyCharacter with
          speed := 0,
          movement := 0,
          char_conditions :=
            speedyCharacter.char_conditions ++
              [⟨"restrained", false, some (some speedyCharacter.speed)⟩] }
        "restrained" =
      Except.ok { speedyCharacter with movement := speedyCharacter.speed } :=
  restrain_roundtrip_restores_speed speedyCharacter "restrained" "1 minute"
    (Or.inr rfl) (by decide) (by decide)

/-- Claim C10 (counterexample to the claim as stated).  Gaining
restrained with duration `'indefinite'` raises AttributeError: the
indefinite branch of `condition.__init__` returns before `_stored` is
created, and the gain hook then writes to the missing attribute. -/
theorem restrained_indefinite_gain_raises :
    add_condition speedyCharacter "restrained" "indefinite" =
      Except.error (PyError.attributeError "condition object has no attribute _stored") := by
  decide

lemma conditional_damage_zero_dice {src : sourceState} {cl : List damageDice}
    {src1 : sourceState}
    (h : _conditional_damage src = Except.ok (cl, src1)) :
    ∀ e ∈ cl, e.num = 0 := by
  unfold _conditional_damage at h
  cases hg : src.genies_wrath with
  | none =>
    rw [hg] at h
    simp at h
    obtain ⟨h1, -⟩ := h
    subst h1
    simp
  | some gw =>
    rw [hg] at h
    simp only [] at h
    by_cases hz : gw ≠ 0
    · rw [if_pos hz] at h
      cases hp : src.patron with
      | none => rw [hp] at h; simp at h
      | some p =>
        rw [hp] at h
        simp only [] at h
        split at h
        · simp at h
          obtain ⟨h1, -⟩ := h
          subst h1
          simp
        · split at h
          · simp at h
            obtain ⟨h1, -⟩ := h
            subst h1
            simp
          · split at h
            · simp at h
              obtain ⟨h1, -⟩ := h
              subst h1
              simp
            · split at h
              · simp at h
                obtain ⟨h1, -⟩ := h
                subst h1
                simp
              · simp at h
    · rw [if_neg hz] at h
      simp at h
      obtain ⟨h1, -⟩ := h
      subst h1
      simp

lemma additional_damage_double (src : sourceState) (atk : attackDef) (adv : Int)
    (adjEnemy : Bool) :
    _additional_damage src (double_dice_counts atk) adv adjEnemy
      = _additional_damage src atk adv adjEnemy := rfl

lemma roll_damage_go_zero_dice (rollD : Int → Int → Int) (atk : attackDef)
    (lastUsed : String) (adv : Int) (offhand adjEnemy : Bool) :
    ∀ (tail : List damageDice), (∀ e ∈ tail, e.num = 0) →
    ∀ (src : sourceState) (acc : List (String × Int)),
      roll_damage_go rollD atk lastUsed true adv offhand adjEnemy tail src acc
        = roll_damage_go rollD (double_dice_counts atk) lastUsed false adv offhand adjEnemy
            tail src acc := by
  intro tail
  induction tail with
  | nil => intro _ src acc; rfl
  | cons e rest ih =>
    intro htail src acc
    have he : e.num = 0 := htail e (by simp)
    unfold roll_damage_go
    rw [additional_damage_double]
    cases ha : _additional_damage src atk adv adjEnemy with
    | error er => rfl
    | ok p =>
      obtain ⟨extra, src1⟩ := p
      simp only [he, mul_zero, if_true, if_false]
      cases hm : entry_ability_mod src1 lastUsed offhand e with
      | error er => rfl
      | ok am =>
        exact ih (fun x hx => htail x (by simp [hx])) src1 _

lemma roll_damage_go_crit (rollD : Int → Int → Int) (atk : attackDef)
    (lastUsed : String) (adv : Int) (offhand adjEnemy : Bool) :
    ∀ (ds tail : List damageDice), (∀ e ∈ tail, e.num = 0) →
    ∀ (src : sourceState) (acc : List (String × Int)),
      roll_damage_go rollD atk lastUsed true adv offhand adjEnemy (ds ++ tail) src acc
        = roll_damage_go rollD (double_dice_counts atk) lastUsed false adv offhand adjEnemy
            ((ds.map fun d => { d with num := 2 * d.num }) ++ tail) src acc := by
  intro ds
  induction ds with
  | nil =>
    intro tail htail src acc
    simpa using roll_damage_go_zero_dice rollD atk lastUsed adv offhand adjEnemy tail htail src acc
  | cons d rest ih =>
    intro tail htail src acc
    simp only [List.cons_append, List.map_cons]
    unfold roll_damage_go
    rw [additional_damage_double]
    cases ha : _additional_damage src atk adv adjEnemy with
    | error er => rfl
    | ok p =>
      obtain ⟨extra, src1⟩ := p
      simp only [if_true, if_false, one_mul]
      cases hm : entry_ability_mod src1 lastUsed offhand d with
      | error er =>
        rw [show entry_ability_mod src1 lastUsed offhand { d with num := 2 * d.num }
            = entry_ability_mod src1 lastUsed offhand d from rfl]
        rw [hm]
      | ok am =>
        rw [show entry_ability_mod src1 lastUsed offhand { d with num := 2 * d.num }
            = entry_ability_mod src1 lastUsed offhand d from rfl]
        rw [hm]
        simp only [show (if (false = true) then (2 : Int) else 1) = 1 from rfl,
          show (if (true = true) then (2 : Int) else 1) = 2 from rfl, one_mul]
        exact ih tail htail src1 _

/-- Claim C9 (confirmed).  For every attacker state, attack definition,
dice sampler and flags, a critical damage roll equals the non-critical
damage roll of the same attack with every static damage entry carrying
twice the dice count: only the number of dice rolled is doubled, while
each entry flat modifier, its ability-modifier contribution, and the
conditional/additional damage are identical to the non-critical case
(conditional entries carry zero dice, so doubling does not touch
them). -/
theorem crit_doubles_only_dice (rollD : Int → Int → Int) (src : sourceState)
    (atk : attackDef) (lastUsed : String) (adv : Int) (offhand adjEnemy : Bool) :
    roll_damage rollD src atk lastUsed true adv offhand adjEnemy
      = roll_damage rollD src (double_dice_counts atk) lastUsed false adv offhand adjEnemy := by
  unfold roll_damage
  cases hc : _conditional_damage src with
  | error e => rfl
  | ok p =>
    obtain ⟨cl, src1⟩ := p
    have hzero := conditional_damage_zero_dice hc
    simp only []
    rw [show (double_dice_counts atk).damage
        = atk.damage.map (fun d => { d with num := 2 * d.num }) from rfl]
    exact roll_damage_go_crit rollD atk lastUsed adv offhand adjEnemy atk.damage cl hzero src1 []
